import Mathlib

/-!
Verification of the `typed-fetch` router
(`packages/typed-response/src/index.ts`): a shallow embedding of the
`Router`'s dispatch function `handle`, the per-registration route closure
built by the proxy handler, the plugin pipeline, and the pattern matcher.

Machine strings are Lean `String`s; JavaScript `string.split("/")`,
`array.join("/")` and `toLowerCase` are embedded as explicit recursive
functions over character lists so every definition evaluates inside the
kernel.  Promises are collapsed to values: a route/plugin/handler either
returns a value or raises a `Thrown` signal, and `await Promise.all`
becomes a list of already-settled outcomes inspected in declaration order
(with a rejection, when present, taken before any inspection, as the
`await` of `Promise.all` rethrows a rejection).
-/

namespace TypedFetch

/-- JavaScript `s.split("/")` : splits on every `/`, keeping empty pieces
(`"/a" ↦ ["", "a"]`, `"" ↦ [""]`). -/
def splitSlashAux : List Char → List Char → List String
  | [], acc => [String.mk acc.reverse]
  | c :: cs, acc =>
    if c = '/' then String.mk acc.reverse :: splitSlashAux cs []
    else splitSlashAux cs (c :: acc)

def splitSlash (s : String) : List String :=
  splitSlashAux s.toList []

/-- JavaScript `array.join("/")`. -/
def joinSlash : List String → String
  | [] => ""
  | [s] => s
  | s :: rest => s ++ "/" ++ joinSlash rest

/-- JavaScript `s.toLowerCase()` (ASCII, which covers HTTP method names). -/
def lowerString (s : String) : String :=
  String.mk (s.toList.map Char.toLower)

def startsWithColon (s : String) : Bool :=
  match s.toList with
  | ':' :: _ => true
  | _ => false

/-- `s.slice(1)`: the parameter name behind a leading `:`. -/
def dropHead (s : String) : String :=
  match s.toList with
  | _ :: cs => String.mk cs
  | [] => ""

/-- A parsed URL; the engine only ever reads `pathname`, so URL parsing
(the platform `URL` class) is collapsed to the parsed record. -/
structure URL where
  pathname : String
  deriving DecidableEq, Repr

structure Request where
  url : URL
  method : String
  deriving DecidableEq, Repr

/-- A response body as the dispatcher distinguishes it: `new Response(null, ...)`
versus `new Response(message, ...)`. -/
inductive Body where
  | null
  | text (s : String)
  deriving DecidableEq, Repr

structure SimpleResponse where
  status : Nat
  body : Body
  deriving DecidableEq, Repr

/-- A raised signal, classified the way `handle`'s catch classifies it:
`err instanceof Response`, `err instanceof Error`, anything else. -/
inductive Thrown where
  | resp (r : SimpleResponse)
  | error (message : String)
  | other
  deriving DecidableEq, Repr

/-- Outcome of one route closure: `null` (skip), a returned `Response`,
or a rejection propagating out of the `await`. -/
inductive RouteResult where
  | skip
  | done (r : SimpleResponse)
  | thrown (t : Thrown)
  deriving DecidableEq, Repr

/-- `type Route = (segments, request, rest) => Promise<Response | null>`,
with the promise collapsed to its settled outcome. -/
abbrev Route := List String → Request → RouteResult

/-- The loop body of `handle`: try routes in order; `null` continues,
a response returns, a rejection is normalized by the catch clause. -/
def handleGo (segments : List String) (request : Request) : List Route → SimpleResponse
  | [] => ⟨500, Body.null⟩
  | route :: rest =>
    match route segments request with
    | .skip => handleGo segments request rest
    | .done r => r
    | .thrown (.resp r) => r
    | .thrown (.error m) => ⟨500, Body.text m⟩
    | .thrown .other => ⟨500, Body.null⟩

/-- `handle`: parse the URL once, split its pathname, and run the loop. -/
def handle (routes : List Route) (request : Request) : SimpleResponse :=
  handleGo (splitSlash request.url.pathname) request routes

/-- A value stored in the handler context object. -/
inductive CtxValue where
  | params (ps : List (String × String))
  | url (u : URL)
  | request (r : Request)
  | str (s : String)
  deriving DecidableEq, Repr

/-- The handler context: a JavaScript object as an insertion-ordered
association list with unique keys. -/
abbrev Context := List (String × CtxValue)

/-- Property read `ctx[k]`. -/
def ctxGet : Context → String → Option CtxValue
  | [], _ => none
  | (k', v) :: rest, k => if k' = k then some v else ctxGet rest k

/-- Property write `ctx[k] = v`: overwrite in place or append. -/
def assignOne : Context → String × CtxValue → Context
  | [], kv => [kv]
  | (k', v') :: rest, (k, v) =>
    if k' = k then (k', v) :: rest else (k', v') :: assignOne rest (k, v)

/-- `Object.assign(ctx, fields)`. -/
def objAssign (ctx : Context) (fs : List (String × CtxValue)) : Context :=
  fs.foldl assignOne ctx

/-- Outcome of one plugin call: an early response, a record of fields to
merge, or a rejection. -/
inductive PluginOutcome where
  | response (r : SimpleResponse)
  | fields (fs : List (String × CtxValue))
  | raise (t : Thrown)
  deriving Repr

abbrev Plugin := Request → PluginOutcome

/-- Outcome of the terminal handler call. -/
inductive HandlerOutcome where
  | ret (r : SimpleResponse)
  | raise (t : Thrown)
  deriving Repr

abbrev RouteHandler := Context → HandlerOutcome

/-- The first rejection among the settled plugin outcomes: `await
Promise.all(...)` rethrows it before the results are inspected. -/
def firstRaise : List PluginOutcome → Option Thrown
  | [] => none
  | .raise t :: _ => some t
  | _ :: rest => firstRaise rest

/-- The result-inspection loop of the route closure: the first result that
is a `Response` is returned, field records are `Object.assign`ed into the
context, and after all results the handler runs on the merged context. -/
def runPlugins (h : RouteHandler) : Context → List PluginOutcome → RouteResult
  | ctx, [] =>
    match h ctx with
    | .ret r => .done r
    | .raise t => .thrown t
  | _, .response r :: _ => .done r
  | ctx, .fields fs :: rest => runPlugins h (objAssign ctx fs) rest
  | _, .raise t :: _ => .thrown t

/-- `const context = { params, url: new URL(request.url), request }`. -/
def initialContext (params : List (String × String)) (request : Request) : Context :=
  [("params", CtxValue.params params),
   ("url", CtxValue.url request.url),
   ("request", CtxValue.request request)]

/-- The body of the route closure after the method gate: run the matcher,
and on a match run the plugin pipeline then the handler. -/
def routeAfterMethod
    (matcher : List String → List String → Option (List (String × String)))
    (patternSegments : List String) (plugins : List Plugin) (h : RouteHandler)
    (segments : List String) (request : Request) : RouteResult :=
  match matcher segments patternSegments with
  | none => .skip
  | some params =>
    let context := initialContext params request
    let results := plugins.map (fun p => p request)
    match firstRaise results with
    | some t => .thrown t
    | none => runPlugins h context results

/-- The registration closure built by the proxy handler for a verb
`property`, abstracted over the pattern matcher so that the method gate's
independence from the matcher is expressible. -/
def mkRouteWith
    (matcher : List String → List String → Option (List (String × String)))
    (property : String) (pattern : String)
    (plugins : List Plugin) (h : RouteHandler) : Route :=
  let patternSegments := splitSlash pattern
  fun segments request =>
    if property ≠ "all" ∧ lowerString request.method ≠ property then .skip
    else routeAfterMethod matcher patternSegments plugins h segments request

/-- `"*"`-binding `Object.assign`-style write for the params record. -/
def assignParam : List (String × String) → String → String → List (String × String)
  | [], k, v => [(k, v)]
  | (k', v') :: rest, k, v =>
    if k' = k then (k', v) :: rest else (k', v') :: assignParam rest k v

/-- Modelled from the spec: the positional walk of `match` from
`./match.js`, whose source is not in the repository.  Spec §4.1: a literal
segment must equal the path segment exactly; a `:name` segment requires a
present, non-empty path segment and binds it; a `*` segment (only ever
last) binds the remaining path segments re-joined with `/` under the
reserved name `*` and always succeeds. -/
def matchWalk : List String → List String → List (String × String) →
    Option (List (String × String))
  | [], [], acc => some acc
  | [], _ :: _, _ => none
  | p :: ps, path, acc =>
    if p = "*" then some (assignParam acc "*" (joinSlash path))
    else
      match path with
      | [] => none
      | s :: ss =>
        if startsWithColon p then
          if s = "" then none
          else matchWalk ps ss (assignParam acc (dropHead p) s)
        else if p = s then matchWalk ps ss acc
        else none

/-- Modelled from the spec: `match(segments, patternSegments)` from
`./match.js`, whose source is not in the repository.  Spec §4.1: without a
trailing wildcard the segment counts must be exactly equal, with one the
path must have at least the non-wildcard prefix's count; then the walk. -/
def matchSegments (segments patternSegments : List String) :
    Option (List (String × String)) :=
  if patternSegments.getLast? = some "*" then
    if segments.length + 1 < patternSegments.length then none
    else matchWalk patternSegments segments []
  else
    if segments.length = patternSegments.length then
      matchWalk patternSegments segments []
    else none

/-- The registration closure with the repository's matcher plugged in. -/
def mkRoute : String → String → List Plugin → RouteHandler → Route :=
  mkRouteWith matchSegments

/-- Structural equivalence of responses: same status, same body. -/
def respEquiv (a b : SimpleResponse) : Prop :=
  a.status = b.status ∧ a.body = b.body

/-- The last value bound to `k` across a list of field records, i.e. the
binding `Object.assign` leaves in place. -/
def lookupLast : List (String × CtxValue) → String → Option CtxValue
  | [], _ => none
  | (k', v) :: rest, k =>
    match lookupLast rest k with
    | some w => some w
    | none => if k' = k then some v else none

/-! ### Helper lemmas -/

theorem handleGo_append_skips (segments : List String) (request : Request)
    (pre rest : List Route)
    (hpre : ∀ p ∈ pre, p segments request = RouteResult.skip) :
    handleGo segments request (pre ++ rest) = handleGo segments request rest := by
  induction pre with
  | nil => rfl
  | cons p ps ih =>
    have hp : p segments request = RouteResult.skip := hpre p (List.mem_cons_self p ps)
    simp only [List.cons_append, handleGo, hp]
    exact ih (fun q hq => hpre q (List.mem_cons_of_mem p hq))

theorem ctxGet_assignOne (ctx : Context) (k' k : String) (v : CtxValue) :
    ctxGet (assignOne ctx (k', v)) k = if k' = k then some v else ctxGet ctx k := by
  induction ctx with
  | nil => simp [assignOne, ctxGet]
  | cons kv rest ih =>
    obtain ⟨k₀, v₀⟩ := kv
    simp only [assignOne]
    by_cases h0 : k₀ = k'
    · subst h0
      by_cases hk : k₀ = k <;> simp [ctxGet, hk]
    · simp only [if_neg h0, ctxGet]
      by_cases hk : k₀ = k
      · subst hk
        have hne : k' ≠ k₀ := fun he => h0 he.symm
        simp [hne]
      · simp [hk, ih]

theorem ctxGet_objAssign (ctx : Context) (fs : List (String × CtxValue)) (k : String) :
    ctxGet (objAssign ctx fs) k =
      match lookupLast fs k with
      | some w => some w
      | none => ctxGet ctx k := by
  induction fs generalizing ctx with
  | nil => simp [objAssign, lookupLast]
  | cons kv rest ih =>
    obtain ⟨k₀, v₀⟩ := kv
    simp only [objAssign, List.foldl_cons] at ih ⊢
    rw [ih]
    cases hl : lookupLast rest k with
    | some w => simp [lookupLast, hl]
    | none =>
      simp only [lookupLast, hl, ctxGet_assignOne]
      by_cases hk : k₀ = k <;> simp [hk]

theorem lookupLast_append (as bs : List (String × CtxValue)) (k : String) :
    lookupLast (as ++ bs) k =
      match lookupLast bs k with
      | some w => some w
      | none => lookupLast as k := by
  induction as with
  | nil =>
    simp only [List.nil_append]
    cases hb : lookupLast bs k <;> simp [lookupLast, hb]
  | cons kv rest ih =>
    obtain ⟨k₀, v₀⟩ := kv
    simp only [List.cons_append, lookupLast, List.append_eq]
    rw [ih]
    cases hb : lookupLast bs k <;> cases hr : lookupLast rest k <;> simp

theorem ctxGet_foldl_objAssign (ctx : Context)
    (fss : List (List (String × CtxValue))) (k : String) :
    ctxGet (fss.foldl objAssign ctx) k =
      match lookupLast fss.flatten k with
      | some w => some w
      | none => ctxGet ctx k := by
  induction fss generalizing ctx with
  | nil => simp [lookupLast]
  | cons fs rest ih =>
    simp only [List.foldl_cons, List.flatten_cons]
    rw [ih, lookupLast_append]
    cases lookupLast rest.flatten k with
    | some w => rfl
    | none =>
      rw [ctxGet_objAssign]

theorem firstRaise_append (as bs : List PluginOutcome) :
    firstRaise (as ++ bs) =
      match firstRaise as with
      | some t => some t
      | none => firstRaise bs := by
  induction as with
  | nil => simp [firstRaise]
  | cons a rest ih => cases a <;> simp [firstRaise, ih]

theorem firstRaise_map_fields (fss : List (List (String × CtxValue))) :
    firstRaise (fss.map PluginOutcome.fields) = none := by
  induction fss with
  | nil => rfl
  | cons fs rest ih => simp [firstRaise, ih]

theorem runPlugins_fields_step (h : RouteHandler) (ctx : Context)
    (fss : List (List (String × CtxValue))) (rest : List PluginOutcome) :
    runPlugins h ctx (fss.map PluginOutcome.fields ++ rest) =
      runPlugins h (fss.foldl objAssign ctx) rest := by
  induction fss generalizing ctx with
  | nil => rfl
  | cons fs fss ih => simp [runPlugins, ih]

/-- The route closure on a matched route whose plugins all contribute field
records: the handler runs on the contexts merged in declaration order. -/
theorem mkRoute_fields_run
    (property pattern : String) (plugins : List Plugin) (h : RouteHandler)
    (segments : List String) (request : Request)
    (params : List (String × String)) (fss : List (List (String × CtxValue)))
    (hmethod : ¬(property ≠ "all" ∧ lowerString request.method ≠ property))
    (hmatch : matchSegments segments (splitSlash pattern) = some params)
    (hfs : plugins.map (fun q => q request) = fss.map PluginOutcome.fields) :
    mkRoute property pattern plugins h segments request =
      match h (fss.foldl objAssign (initialContext params request)) with
      | .ret r => RouteResult.done r
      | .raise t => RouteResult.thrown t := by
  simp only [mkRoute, mkRouteWith, if_neg hmethod, routeAfterMethod, hmatch, hfs,
    firstRaise_map_fields]
  have := runPlugins_fields_step h (initialContext params request) fss []
  rw [List.append_nil] at this
  rw [this]
  rfl

/-- Dispatch over a route list in which every route skips falls through to
the final `new Response(null, \x7b status: 500 \x7d)`. -/
theorem handleGo_all_skip (segments : List String) (request : Request)
    (l : List Route)
    (h : ∀ p ∈ l, p segments request = RouteResult.skip) :
    handleGo segments request l = ⟨500, Body.null⟩ := by
  have hgo := handleGo_append_skips segments request l [] h
  rw [List.append_nil] at hgo
  exact hgo

/-! ### Concrete instances used by witnesses and counterexamples -/

def getRequest (path : String) : Request := ⟨⟨path⟩, "GET"⟩

def boomRoute : Route := fun _ _ => RouteResult.thrown (Thrown.error "boom")

def okHandler : RouteHandler := fun _ => HandlerOutcome.ret ⟨200, Body.text "ok"⟩

def unmatchedRoute : Route := mkRoute "get" "/other" [] okHandler

def opaqueRoute : Route :=
  mkRoute "get" "/c2" [] (fun _ => HandlerOutcome.raise Thrown.other)

def idRoute : Route :=
  mkRoute "get" "/users/:id" [] (fun _ => HandlerOutcome.ret ⟨200, Body.text "id-route"⟩)

def meRoute : Route :=
  mkRoute "get" "/users/me" [] (fun _ => HandlerOutcome.ret ⟨200, Body.text "me-route"⟩)

/-! ### Claim theorems -/

/-- C1: `handle` always returns a response, never raising outward; a value
thrown during dispatch is normalized by the catch clause: a thrown
`Response` is returned verbatim with no modification, a thrown `Error`
becomes a 500 response whose body is exactly the error's message, and any
other thrown value becomes a 500 response with a null body.  (Totality is
carried by the type of `handle`.) -/
theorem handle_normalizes_thrown (pre post : List Route) (r : Route)
    (request : Request)
    (hpre : ∀ p ∈ pre, p (splitSlash request.url.pathname) request = RouteResult.skip)
    (t : Thrown)
    (hr : r (splitSlash request.url.pathname) request = RouteResult.thrown t) :
    handle (pre ++ r :: post) request =
      match t with
      | .resp resp => resp
      | .error m => ⟨500, Body.text m⟩
      | .other => ⟨500, Body.null⟩ := by
  unfold handle
  rw [handleGo_append_skips _ _ _ _ hpre]
  cases t <;> simp [handleGo, hr]

theorem handle_normalizes_thrown_witness :
    handle [boomRoute] (getRequest "/w1") = ⟨500, Body.text "boom"⟩ :=
  handle_normalizes_thrown [] [] boomRoute (getRequest "/w1") (by simp)
    (Thrown.error "boom") rfl

/-- C2 counterexample: the fallback response when no registered route
matches (`unmatchedRoute` is registered for pattern `/other` and the
request path is `/c2`) agrees in both status and body with the response
produced when a matched route's handler throws an opaque (non-Response,
non-Error) failure — both are 500 with a null body, so the two cases are
not distinguishable by status or body. -/
theorem fallback_indistinguishable_from_opaque :
    (handle [unmatchedRoute] (getRequest "/c2")).status
      = (handle [opaqueRoute] (getRequest "/c2")).status
    ∧ (handle [unmatchedRoute] (getRequest "/c2")).body
      = (handle [opaqueRoute] (getRequest "/c2")).body :=
  ⟨rfl, rfl⟩

/-- C2 amended: the fallback response produced when no registered route
matches is `⟨500, null⟩`, and the response produced when a matched route's
handler throws an opaque failure is also `⟨500, null⟩`: the two cases are
identical in status and body, hence not distinguishable. -/
theorem fallback_equals_opaque_throw (request : Request)
    (noMatch : List Route)
    (h1 : ∀ p ∈ noMatch, p (splitSlash request.url.pathname) request = RouteResult.skip)
    (pre post : List Route) (r : Route)
    (hpre : ∀ p ∈ pre, p (splitSlash request.url.pathname) request = RouteResult.skip)
    (hr : r (splitSlash request.url.pathname) request = RouteResult.thrown Thrown.other) :
    handle noMatch request = ⟨500, Body.null⟩
    ∧ handle (pre ++ r :: post) request = ⟨500, Body.null⟩ := by
  constructor
  · exact handleGo_all_skip _ _ _ h1
  · unfold handle
    rw [handleGo_append_skips _ _ _ _ hpre]
    simp [handleGo, hr]

theorem fallback_equals_opaque_throw_witness :
    handle [unmatchedRoute] (getRequest "/c2") = ⟨500, Body.null⟩
    ∧ handle [opaqueRoute] (getRequest "/c2") = ⟨500, Body.null⟩ :=
  fallback_equals_opaque_throw (getRequest "/c2") [unmatchedRoute]
    (by intro p hp; rw [List.mem_singleton] at hp; subst hp; decide)
    [] [] opaqueRoute (by simp) (by decide)

/-- C3: the dispatched response comes from the first route in registration
order whose method and pattern both match (here: whose closure does not
skip); routes registered later are never consulted — the result equals the
dispatch over the table truncated at the first match, whatever follows. -/
theorem first_match_wins (request : Request) (pre post : List Route) (r : Route)
    (hpre : ∀ p ∈ pre, p (splitSlash request.url.pathname) request = RouteResult.skip)
    (hr : r (splitSlash request.url.pathname) request ≠ RouteResult.skip) :
    handle (pre ++ r :: post) request = handle [r] request := by
  unfold handle
  rw [handleGo_append_skips _ _ _ _ hpre]
  cases hres : r (splitSlash request.url.pathname) request with
  | skip => exact absurd hres hr
  | done x => simp [handleGo, hres]
  | thrown t => cases t <;> simp [handleGo, hres]

theorem first_match_wins_witness :
    handle [idRoute, meRoute] (getRequest "/users/me")
      = handle [idRoute] (getRequest "/users/me")
    ∧ handle [idRoute, meRoute] (getRequest "/users/me")
      = ⟨200, Body.text "id-route"⟩ :=
  ⟨first_match_wins (getRequest "/users/me") [] [meRoute] idRoute (by simp)
      (by decide),
   by decide⟩

def fieldPlugin : Plugin := fun _ => PluginOutcome.fields [("a", CtxValue.str "1")]

def respPlugin : Plugin := fun _ => PluginOutcome.response ⟨401, Body.text "denied"⟩

def laterRespPlugin : Plugin := fun _ => PluginOutcome.response ⟨403, Body.text "later"⟩

def pluginA : Plugin :=
  fun _ => PluginOutcome.fields [("x", CtxValue.str "fromA"), ("y", CtxValue.str "onlyA")]

def pluginB : Plugin := fun _ => PluginOutcome.fields [("x", CtxValue.str "fromB")]

/-- A handler that echoes the context entry under `"x"`. -/
def readX : RouteHandler := fun ctx =>
  match ctxGet ctx "x" with
  | some (CtxValue.str s) => HandlerOutcome.ret ⟨200, Body.text s⟩
  | _ => HandlerOutcome.ret ⟨500, Body.null⟩

/-- C4: on a matched route, the settled plugin results are inspected in the
plugins' declaration order and the first one that is a `Response` becomes the
route's response, bypassing the handler (the conclusion holds for every
handler `h`), provided no plugin rejected (a rejection propagates out of
`await Promise.all` before any result is inspected). -/
theorem plugin_response_short_circuits
    (property pattern : String) (fsPlugins rest : List Plugin) (p : Plugin)
    (h : RouteHandler) (segments : List String) (request : Request)
    (params : List (String × String)) (fss : List (List (String × CtxValue)))
    (r : SimpleResponse)
    (hmethod : ¬(property ≠ "all" ∧ lowerString request.method ≠ property))
    (hmatch : matchSegments segments (splitSlash pattern) = some params)
    (hfs : fsPlugins.map (fun q => q request) = fss.map PluginOutcome.fields)
    (hp : p request = PluginOutcome.response r)
    (hnoraise : firstRaise (rest.map (fun q => q request)) = none) :
    mkRoute property pattern (fsPlugins ++ p :: rest) h segments request
      = RouteResult.done r := by
  simp only [mkRoute, mkRouteWith, if_neg hmethod, routeAfterMethod, hmatch,
    List.map_append, List.map_cons, hfs, hp]
  rw [firstRaise_append, firstRaise_map_fields]
  simp only [firstRaise, hnoraise]
  rw [runPlugins_fields_step]
  rfl

theorem plugin_response_short_circuits_witness :
    mkRoute "get" "/p4" [fieldPlugin, respPlugin, laterRespPlugin] okHandler
        (splitSlash "/p4") (getRequest "/p4")
      = RouteResult.done ⟨401, Body.text "denied"⟩ :=
  plugin_response_short_circuits "get" "/p4" [fieldPlugin] [laterRespPlugin]
    respPlugin okHandler (splitSlash "/p4") (getRequest "/p4") []
    [[("a", CtxValue.str "1")]] ⟨401, Body.text "denied"⟩
    (by decide) (by decide) rfl rfl rfl

/-- C5: on a matched route where no plugin result is a `Response`, every
contributed field record is `Object.assign`ed into the handler context in
declaration order before the handler runs on the merged context, and a
lookup in the merged context yields the last value written for that key
(later plugins overwrite earlier ones), falling back to the initial
context. -/
theorem plugins_merge_in_order
    (property pattern : String) (plugins : List Plugin) (h : RouteHandler)
    (segments : List String) (request : Request)
    (params : List (String × String)) (fss : List (List (String × CtxValue)))
    (hmethod : ¬(property ≠ "all" ∧ lowerString request.method ≠ property))
    (hmatch : matchSegments segments (splitSlash pattern) = some params)
    (hfs : plugins.map (fun q => q request) = fss.map PluginOutcome.fields) :
    mkRoute property pattern plugins h segments request
      = (match h (fss.foldl objAssign (initialContext params request)) with
         | .ret r => RouteResult.done r
         | .raise t => RouteResult.thrown t)
    ∧ ∀ k, ctxGet (fss.foldl objAssign (initialContext params request)) k
        = match lookupLast fss.flatten k with
          | some w => some w
          | none => ctxGet (initialContext params request) k :=
  ⟨mkRoute_fields_run property pattern plugins h segments request params fss
      hmethod hmatch hfs,
   fun k => ctxGet_foldl_objAssign (initialContext params request) fss k⟩

theorem plugins_merge_in_order_witness :
    mkRoute "get" "/p5" [pluginA, pluginB] readX (splitSlash "/p5")
        (getRequest "/p5")
      = RouteResult.done ⟨200, Body.text "fromB"⟩ :=
  (plugins_merge_in_order "get" "/p5" [pluginA, pluginB] readX (splitSlash "/p5")
    (getRequest "/p5") []
    [[("x", CtxValue.str "fromA"), ("y", CtxValue.str "onlyA")],
     [("x", CtxValue.str "fromB")]]
    (by decide) (by decide) rfl).1

/-- C6: the method gate: a route registered for a verb other than `all`
skips a request whose lowercased method differs, and does so for every
matcher (the pattern matcher is never consulted); a request whose
lowercased method equals the verb passes the gate; a route registered for
`all` passes the gate for every HTTP method. -/
theorem method_gate (property : String) (request : Request) :
    (∀ (matcher : List String → List String → Option (List (String × String)))
       (pattern : String) (plugins : List Plugin) (h : RouteHandler)
       (segments : List String),
        property ≠ "all" → lowerString request.method ≠ property →
        mkRouteWith matcher property pattern plugins h segments request
          = RouteResult.skip)
    ∧ (∀ (matcher : List String → List String → Option (List (String × String)))
         (pattern : String) (plugins : List Plugin) (h : RouteHandler)
         (segments : List String),
        lowerString request.method = property →
        mkRouteWith matcher property pattern plugins h segments request
          = routeAfterMethod matcher (splitSlash pattern) plugins h segments request)
    ∧ (∀ (matcher : List String → List String → Option (List (String × String)))
         (pattern : String) (plugins : List Plugin) (h : RouteHandler)
         (segments : List String),
        mkRouteWith matcher "all" pattern plugins h segments request
          = routeAfterMethod matcher (splitSlash pattern) plugins h segments request) := by
  refine ⟨fun matcher pattern plugins h segments h1 h2 => ?_,
          fun matcher pattern plugins h segments heq => ?_,
          fun matcher pattern plugins h segments => ?_⟩
  · simp only [mkRouteWith, if_pos (And.intro h1 h2)]
  · have hc : ¬(property ≠ "all" ∧ lowerString request.method ≠ property) :=
      fun hcon => hcon.2 heq
    simp only [mkRouteWith, if_neg hc]
  · have hc : ¬("all" ≠ "all" ∧ lowerString request.method ≠ "all") :=
      fun hcon => hcon.1 rfl
    simp only [mkRouteWith, if_neg hc]

theorem method_gate_witness :
    mkRouteWith matchSegments "post" "/w6" [] okHandler (splitSlash "/w6")
        (getRequest "/w6") = RouteResult.skip :=
  (method_gate "post" (getRequest "/w6")).1 matchSegments "/w6" [] okHandler
    (splitSlash "/w6") (by decide) (by decide)

/-- C7: once a matched route's handler begins executing (its method and
pattern matched and no plugin short-circuited or rejected), it owns the
response: the dispatch result is independent of every route registered
after it, and is exactly the normalization of whatever the handler returns
or raises. -/
theorem handler_owns_dispatch
    (request : Request) (pre post post' : List Route)
    (property pattern : String) (plugins : List Plugin) (h : RouteHandler)
    (params : List (String × String)) (fss : List (List (String × CtxValue)))
    (hpre : ∀ p ∈ pre, p (splitSlash request.url.pathname) request = RouteResult.skip)
    (hmethod : ¬(property ≠ "all" ∧ lowerString request.method ≠ property))
    (hmatch : matchSegments (splitSlash request.url.pathname) (splitSlash pattern)
      = some params)
    (hfs : plugins.map (fun q => q request) = fss.map PluginOutcome.fields) :
    handle (pre ++ mkRoute property pattern plugins h :: post) request
      = handle (pre ++ mkRoute property pattern plugins h :: post') request
    ∧ handle (pre ++ mkRoute property pattern plugins h :: post) request
      = (match h (fss.foldl objAssign (initialContext params request)) with
         | .ret resp => resp
         | .raise (.resp resp) => resp
         | .raise (.error m) => ⟨500, Body.text m⟩
         | .raise .other => ⟨500, Body.null⟩) := by
  have hroute := mkRoute_fields_run property pattern plugins h
    (splitSlash request.url.pathname) request params fss hmethod hmatch hfs
  have key : ∀ tail : List Route,
      handleGo (splitSlash request.url.pathname) request
        (mkRoute property pattern plugins h :: tail)
      = (match h (fss.foldl objAssign (initialContext params request)) with
         | .ret resp => resp
         | .raise (.resp resp) => resp
         | .raise (.error m) => ⟨500, Body.text m⟩
         | .raise .other => ⟨500, Body.null⟩) := by
    intro tail
    cases hh : h (fss.foldl objAssign (initialContext params request)) with
    | ret resp => simp [handleGo, hroute, hh]
    | raise t => cases t <;> simp [handleGo, hroute, hh]
  refine ⟨?_, ?_⟩
  · unfold handle
    rw [handleGo_append_skips _ _ _ _ hpre, handleGo_append_skips _ _ _ _ hpre,
      key, key]
  · unfold handle
    rw [handleGo_append_skips _ _ _ _ hpre, key]

def skipRoute7 : Route := mkRoute "post" "/h7" [] okHandler

def failHandler : RouteHandler :=
  fun _ => HandlerOutcome.raise (Thrown.error "handler-failed")

def neverRoute7 : Route :=
  mkRoute "get" "/h7" [] (fun _ => HandlerOutcome.ret ⟨200, Body.text "never"⟩)

theorem handler_owns_dispatch_witness :
    handle [skipRoute7, mkRoute "get" "/h7" [] failHandler, neverRoute7]
        (getRequest "/h7")
      = handle [skipRoute7, mkRoute "get" "/h7" [] failHandler] (getRequest "/h7")
    ∧ handle [skipRoute7, mkRoute "get" "/h7" [] failHandler, neverRoute7]
        (getRequest "/h7")
      = ⟨500, Body.text "handler-failed"⟩ :=
  handler_owns_dispatch (getRequest "/h7") [skipRoute7] [neverRoute7] []
    "get" "/h7" [] failHandler [] []
    (by intro p hp; rw [List.mem_singleton] at hp; subst hp; decide)
    (by decide) (by decide) rfl

/-- C8: for a pattern with no trailing wildcard, a path whose `/`-split
segment count differs from the pattern's segment count never matches. -/
theorem segment_count_mismatch_no_match (patternSegments segments : List String)
    (hw : patternSegments.getLast? ≠ some "*")
    (hlen : segments.length ≠ patternSegments.length) :
    matchSegments segments patternSegments = none := by
  unfold matchSegments
  rw [if_neg hw, if_neg hlen]

theorem segment_count_mismatch_no_match_witness :
    matchSegments (splitSlash "/users/42/extra") (splitSlash "/users/:id") = none :=
  segment_count_mismatch_no_match (splitSlash "/users/:id")
    (splitSlash "/users/42/extra") (by decide) (by decide)

/-- C9: dispatch is a pure function of the route table and the request:
dispatching the same request twice against an unchanged route table yields
structurally equivalent responses (same status, same body). -/
theorem dispatch_deterministic (routes : List Route) (request : Request) :
    respEquiv (handle routes request) (handle routes request) :=
  ⟨rfl, rfl⟩

/-- C10: the plugin field records are merged into the very object that
holds the reserved keys: before the merge the context holds exactly
`params`, `url` and `request` (every other key is absent), a plugin record
that binds one of those keys replaces the reserved value the handler
receives, and a key no plugin mentions is left unchanged. -/
theorem plugin_fields_override_reserved
    (property pattern : String) (plugins : List Plugin) (h : RouteHandler)
    (segments : List String) (request : Request)
    (params : List (String × String)) (fss : List (List (String × CtxValue)))
    (hmethod : ¬(property ≠ "all" ∧ lowerString request.method ≠ property))
    (hmatch : matchSegments segments (splitSlash pattern) = some params)
    (hfs : plugins.map (fun q => q request) = fss.map PluginOutcome.fields) :
    mkRoute property pattern plugins h segments request
      = (match h (fss.foldl objAssign (initialContext params request)) with
         | .ret r => RouteResult.done r
         | .raise t => RouteResult.thrown t)
    ∧ (ctxGet (initialContext params request) "params" = some (CtxValue.params params)
       ∧ ctxGet (initialContext params request) "url" = some (CtxValue.url request.url)
       ∧ ctxGet (initialContext params request) "request" = some (CtxValue.request request)
       ∧ ∀ k, k ≠ "params" → k ≠ "url" → k ≠ "request" →
           ctxGet (initialContext params request) k = none)
    ∧ (∀ (v : CtxValue) (k : String), lookupLast fss.flatten k = some v →
        ctxGet (fss.foldl objAssign (initialContext params request)) k = some v)
    ∧ (∀ k : String, lookupLast fss.flatten k = none →
        ctxGet (fss.foldl objAssign (initialContext params request)) k
          = ctxGet (initialContext params request) k) := by
  refine ⟨mkRoute_fields_run property pattern plugins h segments request params fss
      hmethod hmatch hfs, ⟨rfl, ?_, ?_, ?_⟩, ?_, ?_⟩
  · simp [initialContext, ctxGet]
  · simp [initialContext, ctxGet]
  · intro k h1 h2 h3
    simp [initialContext, ctxGet, Ne.symm h1, Ne.symm h2, Ne.symm h3]
  · intro v k hv
    rw [ctxGet_foldl_objAssign, hv]
  · intro k hk
    rw [ctxGet_foldl_objAssign, hk]

def hijackPlugin : Plugin :=
  fun _ => PluginOutcome.fields [("params", CtxValue.str "hijacked")]

/-- A handler that echoes the context entry under `"params"` when a plugin
has replaced it with a plain string. -/
def readParams : RouteHandler := fun ctx =>
  match ctxGet ctx "params" with
  | some (CtxValue.str s) => HandlerOutcome.ret ⟨200, Body.text s⟩
  | _ => HandlerOutcome.ret ⟨500, Body.null⟩

theorem plugin_fields_override_reserved_witness :
    mkRoute "get" "/p10" [hijackPlugin] readParams (splitSlash "/p10")
        (getRequest "/p10")
      = RouteResult.done ⟨200, Body.text "hijacked"⟩
    ∧ ctxGet ([[("params", CtxValue.str "hijacked")]].foldl objAssign
        (initialContext [] (getRequest "/p10"))) "params"
      = some (CtxValue.str "hijacked") :=
  have H := plugin_fields_override_reserved "get" "/p10" [hijackPlugin] readParams
    (splitSlash "/p10") (getRequest "/p10") [] [[("params", CtxValue.str "hijacked")]]
    (by decide) (by decide) rfl
  ⟨H.1, H.2.2.1 (CtxValue.str "hijacked") "params" (by decide)⟩

end TypedFetch
